import Mathlib

/-!
Verification of the entropy-combination and mnemonic-derivation pipeline of
the audio-entropy-bip39 repository.

Bytes are modelled as `Nat` values in `[0, 256)`, byte buffers as `List Nat`,
and 32-bit machine words as `Nat` values reduced modulo `2 ^ 32` wherever the
source wraps.  Fallible Go functions returning `(T, error)` are modelled as
`Except String T`.

The repository's own code (`internal/crypto/crypto.go`, `internal/audio/audio.go`,
`internal/utils/utils.go`, `cmd/audio-entropy-bip39/main.go`, `main.go`) is
embedded directly.  Its library dependencies — Go `crypto/sha256`,
`golang.org/x/crypto/hkdf` and `github.com/tyler-smith/go-bip39` — are not part
of the repository source, so they are modelled from the spec (SHA-256, HKDF with
SHA-256, and the BIP-39 entropy→checksum→wordlist encoding it describes).
-/

set_option maxRecDepth 100000

/-! ## SHA-256 (modelled from the spec: Go `crypto/sha256`, FIPS 180-4) -/

/-- Modulus of a 32-bit machine word. -/
def w32 : Nat := 4294967296

/-- Right-rotation of a 32-bit word by `n` bits. -/
def rotr32 (n x : Nat) : Nat := ((x >>> n) ||| (x <<< (32 - n))) % w32

/-- SHA-256 `Ch` function: `(x ∧ y) ⊕ (¬x ∧ z)` on 32-bit words. -/
def sha256Ch (x y z : Nat) : Nat := (x &&& y) ^^^ ((x ^^^ 4294967295) &&& z)

/-- SHA-256 `Maj` function: `(x ∧ y) ⊕ (x ∧ z) ⊕ (y ∧ z)`. -/
def sha256Maj (x y z : Nat) : Nat := (x &&& y) ^^^ (x &&& z) ^^^ (y &&& z)

/-- SHA-256 big sigma-0: `rotr 2 ⊕ rotr 13 ⊕ rotr 22`. -/
def bigSigma0 (x : Nat) : Nat := rotr32 2 x ^^^ rotr32 13 x ^^^ rotr32 22 x

/-- SHA-256 big sigma-1: `rotr 6 ⊕ rotr 11 ⊕ rotr 25`. -/
def bigSigma1 (x : Nat) : Nat := rotr32 6 x ^^^ rotr32 11 x ^^^ rotr32 25 x

/-- SHA-256 small sigma-0: `rotr 7 ⊕ rotr 18 ⊕ shr 3`. -/
def smallSigma0 (x : Nat) : Nat := rotr32 7 x ^^^ rotr32 18 x ^^^ (x >>> 3)

/-- SHA-256 small sigma-1: `rotr 17 ⊕ rotr 19 ⊕ shr 10`. -/
def smallSigma1 (x : Nat) : Nat := rotr32 17 x ^^^ rotr32 19 x ^^^ (x >>> 10)

/-- The 64 round constants of SHA-256 (the fractional parts of the cube roots
of the first 64 primes), written in decimal. -/
def sha256K : List Nat :=
  [1116352408, 1899447441, 3049323471, 3921009573, 961987163, 1508970993,
   2453635748, 2870763221, 3624381080, 310598401, 607225278, 1426881987,
   1925078388, 2162078206, 2614888103, 3248222580, 3835390401, 4022224774,
   264347078, 604807628, 770255983, 1249150122, 1555081692, 1996064986,
   2554220882, 2821834349, 2952996808, 3210313671, 3336571891, 3584528711,
   113926993, 338241895, 666307205, 773529912, 1294757372, 1396182291,
   1695183700, 1986661051, 2177026350, 2456956037, 2730485921, 2820302411,
   3259730800, 3345764771, 3516065817, 3600352804, 4094571909, 275423344,
   430227734, 506948616, 659060556, 883997877, 958139571, 1322822218,
   1537002063, 1747873779, 1955562222, 2024104815, 2227730452, 2361852424,
   2428436474, 2756734187, 3204031479, 3329325298]

/-- The initial SHA-256 state words, written in decimal. -/
def sha256Init : List Nat :=
  [1779033703, 3144134277, 1013904242, 2773480762,
   1359893119, 2600822924, 528734635, 1541459225]

/-- Packs bytes into big-endian 32-bit words, four bytes per word. -/
def bytesToWordsBE : List Nat → List Nat
  | b0 :: b1 :: b2 :: b3 :: rest =>
      (((b0 * 256 + b1) * 256 + b2) * 256 + b3) :: bytesToWordsBE rest
  | _ => []

/-- Extends the 16 words of a block to the 64-word SHA-256 message schedule. -/
def sha256Schedule (w0 : List Nat) : List Nat :=
  (List.range 48).foldl
    (fun w t =>
      w ++ [(smallSigma1 (w.getD (t + 14) 0) + w.getD (t + 9) 0 +
             smallSigma0 (w.getD (t + 1) 0) + w.getD t 0) % w32])
    w0

/-- Runs the 64 SHA-256 rounds on an 8-word state with a 64-word schedule. -/
def sha256Rounds (state w : List Nat) : List Nat :=
  (List.range 64).foldl
    (fun s t =>
      let a := s.getD 0 0
      let b := s.getD 1 0
      let c := s.getD 2 0
      let d := s.getD 3 0
      let e := s.getD 4 0
      let f := s.getD 5 0
      let g := s.getD 6 0
      let h := s.getD 7 0
      let t1 := (h + bigSigma1 e + sha256Ch e f g + sha256K.getD t 0 + w.getD t 0) % w32
      let t2 := (bigSigma0 a + sha256Maj a b c) % w32
      [(t1 + t2) % w32, a, b, c, (d + t1) % w32, e, f, g])
    state

/-- Compression of one 64-byte block into the running 8-word state. -/
def sha256Compress (state block : List Nat) : List Nat :=
  let w := sha256Schedule (bytesToWordsBE block)
  let t := sha256Rounds state w
  [(state.getD 0 0 + t.getD 0 0) % w32, (state.getD 1 0 + t.getD 1 0) % w32,
   (state.getD 2 0 + t.getD 2 0) % w32, (state.getD 3 0 + t.getD 3 0) % w32,
   (state.getD 4 0 + t.getD 4 0) % w32, (state.getD 5 0 + t.getD 5 0) % w32,
   (state.getD 6 0 + t.getD 6 0) % w32, (state.getD 7 0 + t.getD 7 0) % w32]

/-- The eight bytes of a 64-bit length value, most significant first. -/
def beBytes8 (n : Nat) : List Nat :=
  [n >>> 56 % 256, n >>> 48 % 256, n >>> 40 % 256, n >>> 32 % 256,
   n >>> 24 % 256, n >>> 16 % 256, n >>> 8 % 256, n % 256]

/-- Pads a message for SHA-256: a `0x80` marker byte, zero fill up to 56 mod
64, and the message bit length in the final eight bytes. -/
def sha256Pad (msg : List Nat) : List Nat :=
  msg ++ 0x80 :: List.replicate ((64 + 55 - msg.length % 64) % 64) 0 ++ beBytes8 (8 * msg.length)

/-- Splits a padded message into its 64-byte blocks. -/
def sha256Blocks (padded : List Nat) : List (List Nat) :=
  (List.range (padded.length / 64)).map (fun i => (padded.drop (64 * i)).take 64)

/-- The four bytes of a 32-bit word, most significant first. -/
def wordToBytesBE (w : Nat) : List Nat :=
  [w >>> 24 % 256, w >>> 16 % 256, w >>> 8 % 256, w % 256]

/-- Serializes a word-state to bytes, four bytes per word. -/
def wordsToBytesBE : List Nat → List Nat
  | [] => []
  | w :: ws => wordToBytesBE w ++ wordsToBytesBE ws

/-- SHA-256 of a byte sequence, as its 32-byte digest. -/
def sha256 (msg : List Nat) : List Nat :=
  wordsToBytesBE ((sha256Blocks (sha256Pad msg)).foldl sha256Compress sha256Init)

example : sha256 [] =
    [0xe3, 0xb0, 0xc4, 0x42, 0x98, 0xfc, 0x1c, 0x14, 0x9a, 0xfb, 0xf4, 0xc8, 0x99, 0x6f, 0xb9, 0x24,
     0x27, 0xae, 0x41, 0xe4, 0x64, 0x9b, 0x93, 0x4c, 0xa4, 0x95, 0x99, 0x1b, 0x78, 0x52, 0xb8, 0x55] := by
  decide

example : sha256 [0x61, 0x62, 0x63] =
    [0xba, 0x78, 0x16, 0xbf, 0x8f, 0x01, 0xcf, 0xea, 0x41, 0x41, 0x40, 0xde, 0x5d, 0xae, 0x22, 0x23,
     0xb0, 0x03, 0x61, 0xa3, 0x96, 0x17, 0x7a, 0x9c, 0xb4, 0x10, 0xff, 0x61, 0xf2, 0x00, 0x15, 0xad] := by
  decide

example : sha256 (List.replicate 32 0) =
    [0x66, 0x68, 0x7a, 0xad, 0xf8, 0x62, 0xbd, 0x77, 0x6c, 0x8f, 0xc1, 0x8b, 0x8e, 0x9f, 0x8e, 0x20,
     0x08, 0x97, 0x14, 0x85, 0x6e, 0xe2, 0x33, 0xb3, 0x90, 0x2a, 0x59, 0x1d, 0x0d, 0x5f, 0x29, 0x25] := by
  decide

lemma sha256Compress_length (state block : List Nat) : (sha256Compress state block).length = 8 := rfl

lemma foldl_sha256Compress_length (blocks : List (List Nat)) :
    ∀ s : List Nat, s.length = 8 → (blocks.foldl sha256Compress s).length = 8 := by
  induction blocks with
  | nil => intro s hs; simpa using hs
  | cons b bs ih =>
      intro s _
      simpa using ih (sha256Compress s b) (sha256Compress_length s b)

lemma wordsToBytesBE_length (ws : List Nat) : (wordsToBytesBE ws).length = 4 * ws.length := by
  induction ws with
  | nil => rfl
  | cons w ws ih =>
      simp [wordsToBytesBE, wordToBytesBE, ih]
      ring

/-- Every SHA-256 digest has exactly 32 bytes. -/
lemma sha256_length (msg : List Nat) : (sha256 msg).length = 32 := by
  unfold sha256
  rw [wordsToBytesBE_length, foldl_sha256Compress_length _ sha256Init rfl]

/-! ## HMAC-SHA256 and HKDF (modelled from the spec: `golang.org/x/crypto/hkdf`,
HKDF-Extract-and-Expand with SHA-256, RFC 5869) -/

/-- HMAC-SHA256: the key is hashed if longer than the 64-byte block, padded with
zeros to the block size, and combined with the inner pad `0x36` and outer pad
`0x5c`. -/
def hmacSha256 (key msg : List Nat) : List Nat :=
  let k0 := if key.length > 64 then sha256 key else key
  let kPad := k0 ++ List.replicate (64 - k0.length) 0
  sha256 ((kPad.map (fun b => b ^^^ 0x5c)) ++ sha256 ((kPad.map (fun b => b ^^^ 0x36)) ++ msg))

lemma hmacSha256_length (key msg : List Nat) : (hmacSha256 key msg).length = 32 :=
  sha256_length _

/-- HKDF-Extract with SHA-256: an absent salt is replaced by a hash-length
block of zero bytes, and the pseudorandom key is `HMAC(salt, secret)`. -/
def hkdfExtract (secret salt : List Nat) : List Nat :=
  hmacSha256 (if salt = [] then List.replicate 32 0 else salt) secret

/-- HKDF-Expand output block `T(i)`, with `T(0) = empty` and
`T(i) = HMAC(prk, T(i-1) ‖ info ‖ i)`. -/
def hkdfT (prk info : List Nat) : Nat → List Nat
  | 0 => []
  | i + 1 => hmacSha256 prk (hkdfT prk info i ++ info ++ [i + 1])

/-- Concatenation of the HKDF output blocks `T(1) ‖ ... ‖ T(m)`. -/
def hkdfStream (prk info : List Nat) : Nat → List Nat
  | 0 => []
  | m + 1 => hkdfStream prk info m ++ hkdfT prk info (m + 1)

/-- HKDF-Expand with SHA-256: the first `n` bytes of the block stream. -/
def hkdfExpand (prk info : List Nat) (n : Nat) : List Nat :=
  List.take n (hkdfStream prk info ((n + 31) / 32))

/-! ## BIP-39 (modelled from the spec: `github.com/tyler-smith/go-bip39`, which is
not under the repository source; entropy-size validation, checksum and
entropy→checksum→wordlist encoding follow §4.3 of the spec) -/

/-- Modelled from the spec: `go-bip39` accepts an entropy bit size only when it
lies in `[128, 256]` and is a multiple of 32, i.e. exactly
`{128, 160, 192, 224, 256}`. -/
def validEntropyBitSize (bitSize : Int) : Bool :=
  decide (bitSize % 32 = 0 ∧ 128 ≤ bitSize ∧ bitSize ≤ 256)

/-- Modelled from the spec: the `go-bip39` invalid-entropy-length error. -/
def bip39ErrEntropyLength : String :=
  "Entropy length must be [128, 256] and a multiple of 32"

/-- Modelled from the spec: `bip39.NewEntropy` validates the bit size and fills
`bitSize/8` bytes from the system CSPRNG, modelled here as an oracle `rand`
giving the byte at each position. -/
def bip39NewEntropy (rand : Nat → Nat) (bitSize : Int) : Except String (List Nat) :=
  if validEntropyBitSize bitSize then
    Except.ok ((List.range (bitSize / 8).toNat).map (fun i => rand i % 256))
  else
    Except.error bip39ErrEntropyLength

/-- The eight bits of a byte, most significant first. -/
def byteBits (b : Nat) : List Nat :=
  [b >>> 7 % 2, b >>> 6 % 2, b >>> 5 % 2, b >>> 4 % 2,
   b >>> 3 % 2, b >>> 2 % 2, b >>> 1 % 2, b % 2]

/-- A byte sequence as a bit sequence, most significant bit of each byte first. -/
def bytesToBits : List Nat → List Nat
  | [] => []
  | b :: rest => byteBits b ++ bytesToBits rest

/-- The value of a big-endian bit sequence. -/
def bitsToNat (bits : List Nat) : Nat :=
  bits.foldl (fun a b => 2 * a + b) 0

/-- Modelled from the spec: the canonical BIP-39 English 2048-word list lives in
the `go-bip39` dependency, not under the repository source.  The spec pins down
only that index 0 is "abandon" and — through the all-zero known vector ending in
"art", whose final 11-bit group is 102 — that index 102 is "art"; every other
index is represented by a distinct placeholder word. -/
def englishWord (i : Nat) : String :=
  if i = 0 then "abandon" else if i = 102 then "art" else "word" ++ toString i

/-- Modelled from the spec (§4.3): the checksum is the top `len*8/32` bits of
`SHA-256(entropy)`; entropy bits followed by checksum bits are split into
11-bit groups, each indexing the word list, in index order. -/
def mnemonicWords (entropy : List Nat) : List String :=
  let checksumBits := entropy.length * 8 / 32
  let bits := bytesToBits entropy ++ List.take checksumBits (bytesToBits (sha256 entropy))
  (List.range (bits.length / 11)).map
    (fun i => englishWord (bitsToNat ((bits.drop (11 * i)).take 11)))

/-- Modelled from the spec: `bip39.NewMnemonic` validates the entropy length and
joins the mnemonic words with single spaces, preserving index order. -/
def bip39NewMnemonic (entropy : List Nat) : Except String String :=
  if validEntropyBitSize (entropy.length * 8 : Int) then
    Except.ok (String.intercalate " " (mnemonicWords entropy))
  else
    Except.error bip39ErrEntropyLength

/-! ## `internal/crypto/crypto.go` -/

/-- Embeds the `keySize` constant of `crypto.go` (32 bytes, 256 bits). -/
def keySize : Nat := 32

/-- Embeds `crypto.GenerateEntropy`: delegates to `bip39.NewEntropy` and wraps
its error. -/
def GenerateEntropy (rand : Nat → Nat) (bitSize : Int) : Except String (List Nat) :=
  match bip39NewEntropy rand bitSize with
  | Except.ok entropy => Except.ok entropy
  | Except.error e => Except.error ("entropy generation error: " ++ e)

/-- Embeds `crypto.DeriveKey`: an HKDF reader over SHA-256 with nil salt and nil
info, from which `keySize` bytes are read.  The read fails only when the
request exceeds the HKDF expand limit of `255 * 32` bytes. -/
def DeriveKey (entropy : List Nat) : Except String (List Nat) :=
  if keySize > 255 * 32 then
    Except.error "HKDF read error: hkdf: entropy limit reached"
  else
    Except.ok (hkdfExpand (hkdfExtract entropy []) [] keySize)

/-- Embeds `crypto.GenerateMnemonic`: delegates to `bip39.NewMnemonic` and
wraps its error. -/
def GenerateMnemonic (inputData : List Nat) : Except String String :=
  match bip39NewMnemonic inputData with
  | Except.ok m => Except.ok m
  | Except.error e => Except.error ("error generating mnemonic: " ++ e)

/-- Embeds `crypto.HashAudioData`: a single SHA-256 pass over the input bytes,
with no emptiness check. -/
def HashAudioData (data : List Nat) : List Nat := sha256 data

/-- Embeds `crypto.CombineAndHashData`: appends `data2` to `data1` and hashes
the concatenation. -/
def CombineAndHashData (data1 data2 : List Nat) : List Nat := sha256 (data1 ++ data2)

example : GenerateMnemonic (List.replicate 32 0) =
    Except.ok (String.intercalate " " (List.replicate 23 "abandon" ++ ["art"])) := by
  rfl

/-! ## `internal/utils/utils.go` and the root `main.go` serializers

Go `float32` values and the float-to-integer conversions `int16(f * 32767)`
(in `utils.Float32ToByteSlice`) and `uint16(f * 32767)` (in
`main.float32ToInt16Bytes`) are floating-point; the sample type is abstracted
to a type variable and the conversion to a function parameter, which the
byte-layout claims quantify over. -/

/-- Embeds `binary.LittleEndian.PutUint16(bytes[off:], u)`: the low byte lands
at `off`, the high byte at `off + 1`. -/
def putUint16LE (bytes : List Nat) (off u : Nat) : List Nat :=
  (bytes.set off (u % 256)).set (off + 1) (u / 256 % 256)

/-- The write loop shared by both Go serializers:
`for i, f := range floats { binary.LittleEndian.PutUint16(bytes[i*2:], enc(f)) }`. -/
def putLoop (enc : α → Nat) : Nat → List α → List Nat → List Nat
  | _, [], bytes => bytes
  | i, f :: rest, bytes => putLoop enc (i + 1) rest (putUint16LE bytes (i * 2) (enc f))

/-- A Go `int16` value as the `uint16` bit pattern it is converted to. -/
def int16ToUint16 (v : Int) : Nat := (v % 65536).toNat

/-- Embeds `utils.Float32ToByteSlice`: allocates `4 * len(floats)` zero bytes
and writes the scaled samples with `PutUint16` at offsets `i * 2`; `toInt16`
abstracts the floating-point scaling `int16(f * 32767)`. -/
def Float32ToByteSlice (toInt16 : α → Int) (floats : List α) : List Nat :=
  putLoop (fun f => int16ToUint16 (toInt16 f)) 0 floats (List.replicate (4 * floats.length) 0)

/-- Embeds `main.float32ToInt16Bytes` from the root `main.go`: allocates
`2 * len(floats)` zero bytes and writes the scaled samples with `PutUint16` at
offsets `i * 2`; `toUint16` abstracts the floating-point scaling
`uint16(f * 32767)`. -/
def float32ToInt16Bytes (toUint16 : α → Nat) (floats : List α) : List Nat :=
  putLoop toUint16 0 floats (List.replicate (2 * floats.length) 0)

/-! ## `internal/audio/audio.go`, `RecordAudio` -/

/-- Embeds the body of the recording goroutine of `audio.RecordAudio`: each
iteration reads from the stream (modelled as the buffer snapshot that the read
yields, or a read error) and applies the volume-calculation function to the
buffer, whose failure also aborts; display of the volume bar has no effect on
the data.  Returns the first error, if any. -/
def recordLoop (vol : List α → Except String γ) :
    List (Except String (List α)) → Option String
  | [] => none
  | Except.error e :: _ => some ("error reading from audio stream: " ++ e)
  | Except.ok buf :: rest =>
      match vol buf with
      | Except.error e => some ("error calculating volume: " ++ e)
      | Except.ok _ => recordLoop vol rest

/-- Embeds `audio.RecordAudio`: the accumulation buffer `fullBuffer` is
allocated with `make([]float32, 0, bufferSize)` and no statement ever appends
to it; on success the function returns `utils.Float32ToByteSlice(fullBuffer)`.
The stream is abstracted as a possible `Start` error plus the per-iteration
read outcomes, and the volume calculation as an arbitrary fallible function. -/
def RecordAudio (startErr : Option String) (reads : List (Except String (List α)))
    (vol : List α → Except String γ) (toInt16 : α → Int) : Except String (List Nat) :=
  match startErr with
  | some e => Except.error ("error starting audio stream: " ++ e)
  | none =>
      let fullBuffer : List α := []
      match recordLoop vol reads with
      | some e => Except.error e
      | none => Except.ok (Float32ToByteSlice toInt16 fullBuffer)

/-! ## `cmd/audio-entropy-bip39/main.go`, the hashing pipeline -/

/-- Embeds the mnemonic-derivation portion of `main` (lines 74–84): hash the
recorded audio, combine the entropy with the audio hash and re-hash, and
generate the BIP-39 mnemonic from the combined hash. -/
def pipelineMnemonic (entropy audioData : List Nat) : Except String String :=
  let audioHash := HashAudioData audioData
  let combinedDataHash := CombineAndHashData entropy audioHash
  GenerateMnemonic combinedDataHash

/-! ## Supporting lemmas -/

/-- The little-endian byte pairs of the encoded samples, in sample order. -/
def encodePairs (enc : α → Nat) : List α → List Nat
  | [] => []
  | f :: rest => enc f % 256 :: enc f / 256 % 256 :: encodePairs enc rest

lemma encodePairs_length (enc : α → Nat) (l : List α) :
    (encodePairs enc l).length = 2 * l.length := by
  induction l with
  | nil => rfl
  | cons f r ih => simp [encodePairs, ih]; ring

lemma set_append_right (pre t : List Nat) (k v : Nat) :
    (pre ++ t).set (pre.length + k) v = pre ++ t.set k v := by
  induction pre with
  | nil => simp
  | cons p pre ih =>
      have hidx : (p :: pre).length + k = (pre.length + k) + 1 := by
        simp [List.length_cons]; ring
      simp only [List.cons_append, hidx, List.set_cons_succ, ih]

lemma putLoop_length (enc : α → Nat) :
    ∀ (r : List α) (i : Nat) (bytes : List Nat),
      (putLoop enc i r bytes).length = bytes.length := by
  intro r
  induction r with
  | nil => intro i bytes; rfl
  | cons f rest ih =>
      intro i bytes
      simp [putLoop, ih, putUint16LE]

lemma putLoop_closed (enc : α → Nat) :
    ∀ (r : List α) (i : Nat) (pre rest : List Nat),
      pre.length = i * 2 → 2 * r.length ≤ rest.length →
      putLoop enc i r (pre ++ rest) = pre ++ encodePairs enc r ++ rest.drop (2 * r.length) := by
  intro r
  induction r with
  | nil =>
      intro i pre rest _ _
      simp [putLoop, encodePairs]
  | cons f rs ih =>
      intro i pre rest hpre hlen
      match rest with
      | [] => simp at hlen
      | [b0] => simp at hlen; omega
      | b0 :: b1 :: rest1 =>
          have hw : putUint16LE (pre ++ b0 :: b1 :: rest1) (i * 2) (enc f) =
              pre ++ enc f % 256 :: enc f / 256 % 256 :: rest1 := by
            unfold putUint16LE
            have h0 : i * 2 = pre.length + 0 := by omega
            have h1 : i * 2 + 1 = pre.length + 1 := by omega
            rw [h0, set_append_right]
            rw [show pre.length + 0 + 1 = pre.length + 1 by ring, set_append_right]
            rfl
          have hstep : putLoop enc i (f :: rs) (pre ++ b0 :: b1 :: rest1) =
              putLoop enc (i + 1) rs
                ((pre ++ [enc f % 256, enc f / 256 % 256]) ++ rest1) := by
            simp [putLoop, hw]
          rw [hstep, ih (i + 1) (pre ++ [enc f % 256, enc f / 256 % 256]) rest1
            (by simp only [List.length_append, List.length_cons, List.length_nil, hpre]; omega)
            (by simp only [List.length_cons] at hlen; omega)]
          have hdrop : (b0 :: b1 :: rest1).drop (2 * (rs.length + 1)) =
              rest1.drop (2 * rs.length) := by
            rw [show 2 * (rs.length + 1) = 2 * rs.length + 2 by ring]
            simp
          simp [encodePairs, List.append_assoc, hdrop]

lemma bytesToBits_length (l : List Nat) : (bytesToBits l).length = 8 * l.length := by
  induction l with
  | nil => rfl
  | cons b r ih => simp [bytesToBits, byteBits, ih]; ring

lemma mnemonicWords_length_of_len32 (d : List Nat) (hd : d.length = 32) :
    (mnemonicWords d).length = 24 := by
  unfold mnemonicWords
  simp [bytesToBits_length, sha256_length, hd]

lemma bip39NewMnemonic_of_len32 (d : List Nat) (hd : d.length = 32) :
    bip39NewMnemonic d = Except.ok (String.intercalate " " (mnemonicWords d)) := by
  unfold bip39NewMnemonic
  rw [hd]
  rfl

lemma generateMnemonic_of_len32 (d : List Nat) (hd : d.length = 32) :
    GenerateMnemonic d = Except.ok (String.intercalate " " (mnemonicWords d)) ∧
    (mnemonicWords d).length = 24 := by
  refine ⟨?_, mnemonicWords_length_of_len32 d hd⟩
  unfold GenerateMnemonic
  rw [bip39NewMnemonic_of_len32 d hd]

lemma float32ToInt16Bytes_eq_encodePairs (enc : α → Nat) (floats : List α) :
    float32ToInt16Bytes enc floats = encodePairs enc floats := by
  unfold float32ToInt16Bytes
  have h := putLoop_closed enc floats 0 [] (List.replicate (2 * floats.length) 0)
    (by simp) (by simp)
  simp only [List.nil_append] at h
  rw [h, List.drop_replicate]
  simp

lemma Float32ToByteSlice_eq_encodePairs (toInt16 : α → Int) (floats : List α) :
    Float32ToByteSlice toInt16 floats =
      encodePairs (fun f => int16ToUint16 (toInt16 f)) floats ++
        List.replicate (2 * floats.length) 0 := by
  unfold Float32ToByteSlice
  have h := putLoop_closed (fun f => int16ToUint16 (toInt16 f)) floats 0 []
    (List.replicate (4 * floats.length) 0)
    (by simp) (by simp only [List.length_replicate]; omega)
  simp only [List.nil_append] at h
  rw [h, List.drop_replicate,
    show 4 * floats.length - 2 * floats.length = 2 * floats.length by omega]

/-! ## The claims -/

/-- Claim C1, counterexample to the claim as stated: for the 16-zero-byte
entropy and the 32-zero-byte digest the two inputs differ, yet swapping the
arguments of `CombineAndHashData` leaves the result unchanged, because both
concatenations are the same 48-zero-byte buffer. -/
theorem CombineAndHashData_swap_collision :
    (List.replicate 16 0 : List Nat) ≠ List.replicate 32 0 ∧
    CombineAndHashData (List.replicate 16 0) (List.replicate 32 0) =
      CombineAndHashData (List.replicate 32 0) (List.replicate 16 0) := by
  constructor
  · decide
  · rfl

/-- Claim C1, amended: `CombineAndHashData e d` is SHA-256 of `e ++ d`, entropy
first, digest second, for all inputs; swapping the arguments changes the result
for the tested pair `e = 0x01 followed by 31 zero bytes`, `d = 32 zero bytes`,
though not for every pair of distinct inputs. -/
theorem CombineAndHashData_spec :
    (∀ entropy audioDigest : List Nat,
        CombineAndHashData entropy audioDigest = sha256 (entropy ++ audioDigest)) ∧
    CombineAndHashData (1 :: List.replicate 31 0) (List.replicate 32 0) ≠
      CombineAndHashData (List.replicate 32 0) (1 :: List.replicate 31 0) := by
  constructor
  · intro entropy audioDigest; rfl
  · decide

/-- Claim C2, counterexample to the claim as stated: on the empty buffer
`HashAudioData` does not fail — it returns the SHA-256 digest of zero bytes
(`e3b0c442...`); the code has no emptiness check. -/
theorem HashAudioData_empty_digest :
    HashAudioData [] =
      [0xe3, 0xb0, 0xc4, 0x42, 0x98, 0xfc, 0x1c, 0x14, 0x9a, 0xfb, 0xf4, 0xc8,
       0x99, 0x6f, 0xb9, 0x24, 0x27, 0xae, 0x41, 0xe4, 0x64, 0x9b, 0x93, 0x4c,
       0xa4, 0x95, 0x99, 0x1b, 0x78, 0x52, 0xb8, 0x55] := by
  decide

/-- Claim C2, amended: for every buffer, the empty one included,
`HashAudioData` returns the 32-byte SHA-256 digest of exactly those bytes in
one pass; the empty buffer yields the digest of zero bytes rather than an
`EmptyInput` error. -/
theorem HashAudioData_spec :
    ∀ data : List Nat, HashAudioData data = sha256 data ∧ (HashAudioData data).length = 32 :=
  fun data => ⟨rfl, sha256_length data⟩

/-- Claim C3: on the 32-byte all-zero input, `GenerateMnemonic` returns the
canonical BIP-39 test-vector mnemonic of 24 words, the first 23 being
"abandon" and the last "art". -/
theorem GenerateMnemonic_zero_entropy_vector :
    GenerateMnemonic (List.replicate 32 0) =
      Except.ok (String.intercalate " " (List.replicate 23 "abandon" ++ ["art"])) ∧
    mnemonicWords (List.replicate 32 0) = List.replicate 23 "abandon" ++ ["art"] := by
  exact ⟨by rfl, by rfl⟩

/-- Claim C4: `GenerateEntropy` succeeds with exactly `bitSize / 8` bytes for
each of the five legal bit sizes and fails with the invalid-parameter error,
returning no entropy, for every other integer bit size. -/
theorem GenerateEntropy_size_spec :
    ∀ (rand : Nat → Nat) (bitSize : Int),
      ((bitSize = 128 ∨ bitSize = 160 ∨ bitSize = 192 ∨ bitSize = 224 ∨ bitSize = 256) →
        ∃ l, GenerateEntropy rand bitSize = Except.ok l ∧ (l.length : Int) * 8 = bitSize) ∧
      (¬(bitSize = 128 ∨ bitSize = 160 ∨ bitSize = 192 ∨ bitSize = 224 ∨ bitSize = 256) →
        GenerateEntropy rand bitSize =
          Except.error ("entropy generation error: " ++ bip39ErrEntropyLength)) := by
  intro rand bitSize
  constructor
  · intro h
    rcases h with rfl | rfl | rfl | rfl | rfl <;> exact ⟨_, rfl, by simp⟩
  · intro h
    have hv : validEntropyBitSize bitSize = false := by
      simp only [validEntropyBitSize, decide_eq_false_iff_not]
      omega
    unfold GenerateEntropy bip39NewEntropy
    rw [hv]
    rfl

/-- Claim C4 witness: the size-160 call returns 20 bytes and the size-100 call
fails. -/
theorem GenerateEntropy_size_spec_witness :
    (∃ l, GenerateEntropy (fun _ => 0) 160 = Except.ok l ∧ (l.length : Int) * 8 = 160) ∧
    GenerateEntropy (fun _ => 0) 100 =
      Except.error ("entropy generation error: " ++ bip39ErrEntropyLength) :=
  ⟨(GenerateEntropy_size_spec (fun _ => 0) 160).1 (by decide),
   (GenerateEntropy_size_spec (fun _ => 0) 100).2 (by decide)⟩

/-- Claim C5: `GenerateMnemonic` fails with the invalid-entropy-length error,
producing no mnemonic, on every input whose byte length is not one of
16, 20, 24, 28 or 32 — in particular on a 31-byte digest. -/
theorem GenerateMnemonic_invalid_length :
    ∀ data : List Nat,
      ¬(data.length = 16 ∨ data.length = 20 ∨ data.length = 24 ∨
        data.length = 28 ∨ data.length = 32) →
      GenerateMnemonic data =
        Except.error ("error generating mnemonic: " ++ bip39ErrEntropyLength) := by
  intro data h
  have hv : validEntropyBitSize ((data.length : Int) * 8) = false := by
    simp only [validEntropyBitSize, decide_eq_false_iff_not]
    omega
  unfold GenerateMnemonic bip39NewMnemonic
  rw [hv]
  rfl

/-- Claim C5 witness: the 31-byte all-zero digest is rejected. -/
theorem GenerateMnemonic_invalid_length_witness :
    GenerateMnemonic (List.replicate 31 0) =
      Except.error ("error generating mnemonic: " ++ bip39ErrEntropyLength) :=
  GenerateMnemonic_invalid_length (List.replicate 31 0) (by decide)

/-- Claim C6: `DeriveKey` succeeds on every entropy input and returns exactly
32 bytes, equal to the HKDF-Extract-and-Expand output with SHA-256, empty
salt and empty info: `HMAC(HMAC(0^32, entropy), 0x01)`.  As a pure function
of the entropy it is deterministic across calls. -/
theorem DeriveKey_spec :
    ∀ entropy : List Nat, ∃ key,
      DeriveKey entropy = Except.ok key ∧ key.length = 32 ∧
      key = hmacSha256 (hmacSha256 (List.replicate 32 0) entropy) [1] := by
  intro entropy
  have hT : hkdfExpand (hkdfExtract entropy []) [] keySize =
      hmacSha256 (hmacSha256 (List.replicate 32 0) entropy) [1] := by
    show List.take 32 (hkdfStream (hkdfExtract entropy []) [] 1) = _
    simp only [hkdfStream, hkdfT, hkdfExtract, List.nil_append, List.append_nil,
      if_pos rfl, Nat.zero_add]
    exact List.take_of_length_le (le_of_eq (hmacSha256_length _ _))
  exact ⟨hkdfExpand (hkdfExtract entropy []) [] keySize, rfl,
    by rw [hT]; exact hmacSha256_length _ _, hT⟩

/-- Claim C7: for every 32-byte entropy and non-empty audio buffer, the
pipeline output is `GenerateMnemonic (SHA-256 (entropy ‖ SHA-256 audio))` —
a 24-word space-joined phrase determined solely by the two inputs. -/
theorem pipelineMnemonic_spec :
    ∀ entropy audioData : List Nat, entropy.length = 32 → audioData ≠ [] →
      pipelineMnemonic entropy audioData =
        GenerateMnemonic (sha256 (entropy ++ sha256 audioData)) ∧
      pipelineMnemonic entropy audioData =
        Except.ok (String.intercalate " "
          (mnemonicWords (sha256 (entropy ++ sha256 audioData)))) ∧
      (mnemonicWords (sha256 (entropy ++ sha256 audioData))).length = 24 := by
  intro entropy audioData _ _
  obtain ⟨h1, h2⟩ :=
    generateMnemonic_of_len32 (sha256 (entropy ++ sha256 audioData)) (sha256_length _)
  exact ⟨rfl, h1, h2⟩

/-- Claim C7 witness: the end-to-end scenario with a 32-zero-byte entropy and
a 100-zero-byte audio buffer. -/
theorem pipelineMnemonic_spec_witness :
    pipelineMnemonic (List.replicate 32 0) (List.replicate 100 0) =
      GenerateMnemonic (sha256 (List.replicate 32 0 ++ sha256 (List.replicate 100 0))) ∧
    pipelineMnemonic (List.replicate 32 0) (List.replicate 100 0) =
      Except.ok (String.intercalate " "
        (mnemonicWords (sha256 (List.replicate 32 0 ++ sha256 (List.replicate 100 0))))) ∧
    (mnemonicWords (sha256 (List.replicate 32 0 ++ sha256 (List.replicate 100 0)))).length = 24 :=
  pipelineMnemonic_spec (List.replicate 32 0) (List.replicate 100 0) (by simp) (by simp)

/-- Claim C8: `GenerateMnemonic` is a pure function — on any fixed 32-byte
digest its (unique) output is the space-joined sequence of the 24 words in
index order. -/
theorem GenerateMnemonic_pure_24_words :
    ∀ digest : List Nat, digest.length = 32 →
      GenerateMnemonic digest =
        Except.ok (String.intercalate " " (mnemonicWords digest)) ∧
      (mnemonicWords digest).length = 24 :=
  fun digest hd => generateMnemonic_of_len32 digest hd

/-- Claim C8 witness: the all-zero 32-byte digest. -/
theorem GenerateMnemonic_pure_24_words_witness :
    GenerateMnemonic (List.replicate 32 0) =
      Except.ok (String.intercalate " " (mnemonicWords (List.replicate 32 0))) ∧
    (mnemonicWords (List.replicate 32 0)).length = 24 :=
  GenerateMnemonic_pure_24_words (List.replicate 32 0) (by simp)

/-- Claim C9: whenever `RecordAudio` returns successfully, the returned byte
slice is empty — for every stream (start outcome and read outcomes) and every
volume-calculation function — because `fullBuffer` starts empty and is never
appended to. -/
theorem RecordAudio_empty_on_success :
    ∀ (α γ : Type) (startErr : Option String) (reads : List (Except String (List α)))
      (vol : List α → Except String γ) (toInt16 : α → Int) (data : List Nat),
      RecordAudio startErr reads vol toInt16 = Except.ok data → data.length = 0 := by
  intro α γ startErr reads vol toInt16 data h
  cases startErr with
  | some e => simp [RecordAudio] at h
  | none =>
      simp only [RecordAudio] at h
      cases hrec : recordLoop vol reads with
      | some e => rw [hrec] at h; simp at h
      | none =>
          rw [hrec] at h
          simp only [Except.ok.injEq] at h
          rw [← h]
          rfl

/-- Claim C9 witness: a stream that starts cleanly and reads nothing before
the timer fires yields a successful, empty result. -/
theorem RecordAudio_empty_on_success_witness :
    RecordAudio (α := Nat) none [] (fun _ => Except.ok 0) (fun _ => 0) = Except.ok [] ∧
    ([] : List Nat).length = 0 :=
  ⟨rfl, RecordAudio_empty_on_success Nat Nat none [] (fun _ => Except.ok 0) (fun _ => 0) [] rfl⟩

/-- Claim C10: for an `n`-sample input, `Float32ToByteSlice` returns `4 * n`
bytes of which only the first `2 * n` carry the little-endian scaled samples —
they equal the output of the root `main.go` serializer on the same input — and
the last `2 * n` bytes are always zero, while `float32ToInt16Bytes` returns
exactly `2 * n` bytes. -/
theorem Float32ToByteSlice_layout :
    ∀ (α : Type) (toInt16 : α → Int) (toUint16 : α → Nat) (floats : List α),
      (Float32ToByteSlice toInt16 floats).length = 4 * floats.length ∧
      (Float32ToByteSlice toInt16 floats).drop (2 * floats.length) =
        List.replicate (2 * floats.length) 0 ∧
      (Float32ToByteSlice toInt16 floats).take (2 * floats.length) =
        float32ToInt16Bytes (fun f => int16ToUint16 (toInt16 f)) floats ∧
      (float32ToInt16Bytes toUint16 floats).length = 2 * floats.length := by
  intro α toInt16 toUint16 floats
  refine ⟨?_, ?_, ?_, ?_⟩
  · unfold Float32ToByteSlice
    rw [putLoop_length]
    simp
  · rw [Float32ToByteSlice_eq_encodePairs,
      ← encodePairs_length (fun f => int16ToUint16 (toInt16 f)) floats]
    exact List.drop_left _ _
  · rw [Float32ToByteSlice_eq_encodePairs, float32ToInt16Bytes_eq_encodePairs,
      ← encodePairs_length (fun f => int16ToUint16 (toInt16 f)) floats]
    exact List.take_left _ _
  · unfold float32ToInt16Bytes
    rw [putLoop_length]
    simp
